import Mathlib

/-!
Shallow embedding of the streamhub feed-aggregation core — the data model
(`internal/models`, the SQL schema in `internal/db`), the feed-store
operations of `internal/db/db.go`, and the scheduler / worker-pool /
control-protocol engine of `internal/aggregator/aggregator.go` — together
with theorems checking the specification's claims against it.

Timestamps and durations are modelled as integers (nanoseconds, as in Go's
`time.Duration`); feed and article ids as naturals.  The Go standard
library collaborators (`time.Parse`, `time.ParseDuration`) and the
repository's feed fetcher `rss.FetchAndParse` are external collaborators
of the core and appear as function parameters; everything else is
translated from the source.
-/

namespace StreamHub

/-- A tracked feed (`models.Feed`, table `feeds`): opaque id, creation
timestamp, nullable last-refreshed timestamp (column `updated_at`),
unique name and source URL. -/
structure Feed where
  id : Nat
  createdAt : Nat
  updatedAt : Option Nat
  name : String
  url : String
  deriving DecidableEq, Repr

/-- A stored article (`models.Article`, table `articles`), reduced to the
columns the worker writes: title, link, description, publish timestamp and
the owning feed's id. -/
structure Article where
  title : String
  link : String
  description : String
  publishedAt : Nat
  feedID : Nat
  deriving DecidableEq, Repr

/-- The persistent store the core reads and writes: the `feeds` and
`articles` tables. -/
structure DBState where
  feeds : List Feed
  articles : List Article
  deriving DecidableEq, Repr

/-- One `<item>` of a fetched feed (`rss.Item`): title, link, description
and the raw publish-date string. -/
structure Item where
  title : String
  link : String
  description : String
  pubDate : String
  deriving DecidableEq, Repr

/-- The `<channel>` element of a fetched feed: its list of items. -/
structure Channel where
  item : List Item
  deriving DecidableEq, Repr

/-- A fetched-and-parsed feed document (`rss.RSSFeed`). -/
structure RSSFeed where
  channel : Channel
  deriving DecidableEq, Repr

/-- The comparison realised by `ORDER BY updated_at ASC NULLS FIRST`:
a NULL last-refreshed timestamp sorts before every non-NULL one, and
non-NULL timestamps sort ascending. -/
def nullsFirstLE : Option Nat → Option Nat → Prop
  | none, _ => True
  | some _, none => False
  | some a, some b => a ≤ b

instance : DecidableRel nullsFirstLE
  | none, _ => isTrue trivial
  | some _, none => isFalse fun h => h
  | some a, some b => Nat.decLe a b

/-- The `GetOutdatedFeeds` row order, lifted to whole feed rows. -/
def feedOverdueLE (f g : Feed) : Prop :=
  nullsFirstLE f.updatedAt g.updatedAt

instance : DecidableRel feedOverdueLE := fun f g =>
  inferInstanceAs (Decidable (nullsFirstLE f.updatedAt g.updatedAt))

instance : IsTotal Feed feedOverdueLE where
  total f g := by
    unfold feedOverdueLE nullsFirstLE
    cases f.updatedAt <;> cases g.updatedAt <;> simp [Nat.le_total]

instance : IsTrans Feed feedOverdueLE where
  trans f g h hfg hgh := by
    unfold feedOverdueLE nullsFirstLE at *
    cases hf : f.updatedAt <;> cases hg : g.updatedAt <;>
      cases hh : h.updatedAt <;> simp_all
    omega

/-- `DB.GetOutdatedFeeds`: `SELECT id, created_at, updated_at, name, url
FROM feeds ORDER BY updated_at ASC NULLS FIRST LIMIT $1`. -/
def GetOutdatedFeeds (d : DBState) (limit : Nat) : List Feed :=
  (List.insertionSort feedOverdueLE d.feeds).take limit

/-- `DB.ArticleExists`: `SELECT COUNT(*) FROM articles WHERE feed_id = $1
AND link = $2`, returned as `count > 0`. -/
def ArticleExists (d : DBState) (feedID : Nat) (link : String) : Bool :=
  d.articles.any fun a => a.feedID == feedID && a.link == link

/-- `DB.InsertArticle`: `INSERT INTO articles ... VALUES ...`. -/
def InsertArticle (d : DBState) (article : Article) : DBState :=
  { d with articles := d.articles ++ [article] }

/-- `DB.UpdateFeedUpdatedAt`: `UPDATE feeds SET updated_at =
CURRENT_TIMESTAMP WHERE id = $1`; `now` is the instant of the call. -/
def UpdateFeedUpdatedAt (d : DBState) (id : Nat) (now : Nat) : DBState :=
  { d with feeds := d.feeds.map fun f =>
      if f.id = id then { f with updatedAt := some now } else f }

/-- The Go layout strings tried by `parsePubDate`, in source order:
`time.RFC1123`, `time.RFC1123Z`, `time.RFC822`, `time.RFC822Z` and two
ISO-8601 variants. -/
def pubDateFormats : List String :=
  ["Mon, 02 Jan 2006 15:04:05 MST",
   "Mon, 02 Jan 2006 15:04:05 -0700",
   "02 Jan 06 15:04 MST",
   "02 Jan 06 15:04 -0700",
   "2006-01-02T15:04:05Z",
   "2006-01-02T15:04:05-07:00"]

/-- The format loop of `parsePubDate`: the result of the first layout in
`fs` that `timeParse` (the collaborator `time.Parse`) accepts. -/
def firstParse (timeParse : String → String → Option Nat) (s : String) :
    List String → Option Nat
  | [] => none
  | f :: fs =>
    match timeParse f s with
    | some t => some t
    | none => firstParse timeParse s fs

/-- `parsePubDate`: tries the layouts of `pubDateFormats` in order and
returns the first successful parse, else the "no matching format"
error. -/
def parsePubDate (timeParse : String → String → Option Nat) (s : String) :
    Except String Nat :=
  match firstParse timeParse s pubDateFormats with
  | some t => .ok t
  | none => .error ("no matching format for pubDate: " ++ s)

/-- The body of `Aggregator.worker`'s per-item loop: normalize the raw
date (a failure skips just this item), build the article record, skip it
when `ArticleExists` reports the (feed, link) pair present, otherwise
`InsertArticle`. -/
def processItem (timeParse : String → String → Option Nat) (feed : Feed)
    (d : DBState) (item : Item) : DBState :=
  match parsePubDate timeParse item.pubDate with
  | .error _ => d
  | .ok pubDate =>
    let article : Article :=
      { title := item.title
        link := item.link
        description := item.description
        publishedAt := pubDate
        feedID := feed.id }
    if ArticleExists d feed.id article.link then d
    else InsertArticle d article

/-- One claimed feed's cycle in `Aggregator.worker`: `rss.FetchAndParse`
(the collaborator `fetch`; `none` is an outright fetch/parse failure, on
which the worker logs and `continue`s to the next job), then the item
loop over `rssFeed.Channel.Item`, then `UpdateFeedUpdatedAt`. -/
def workerCycle (fetch : String → Option RSSFeed)
    (timeParse : String → String → Option Nat) (now : Nat)
    (d : DBState) (feed : Feed) : DBState :=
  match fetch feed.url with
  | none => d
  | some rssFeed =>
    let d1 := rssFeed.channel.item.foldl (processItem timeParse feed) d
    UpdateFeedUpdatedAt d1 feed.id now

/-- The mutable state of the `Aggregator`: the tracked worker count, the
per-worker stop channels (`doneChans`) in creation order — channels are
identified by the id they were allocated from the counter `nextChan` —
the ids on which a stop signal has been sent (`close(done)`), the tick
interval, the ticker's next-fire deadline, and the contents of the `jobs`
queue. -/
structure AggState where
  workers : Int
  doneChans : List Nat
  nextChan : Nat
  closed : List Nat
  interval : Int
  tickerDeadline : Int
  jobs : List Feed
  deriving DecidableEq, Repr

/-- The in-bounds indexing assumption `Aggregator.Resize` relies on: the
stop-channel slice has one entry per tracked worker. -/
def AggWF (a : AggState) : Prop :=
  a.doneChans.length = a.workers.toNat

/-- The body of the ticker branch of `Aggregator.Start`'s scheduling
loop: query `GetOutdatedFeeds(a.workers)` and send each returned feed on
the `jobs` queue, in the returned order. -/
def tick (a : AggState) (d : DBState) : AggState :=
  { a with jobs := a.jobs ++ GetOutdatedFeeds d a.workers.toNat }

/-- `Aggregator.Resize`: reject a count below 1; on growth append fresh
stop channels and start a runner on each; on shrink send a stop signal on
(close) the channels at positions `newWorkers ≤ i < oldWorkers` and
truncate the tracked slice to `newWorkers` (under `AggWF` these are
exactly the trailing, most-recently-added channels, `drop`). -/
def Resize (a : AggState) (newWorkers : Int) : Except String AggState :=
  if newWorkers < 1 then
    .error "workers must be at least 1"
  else if a.workers < newWorkers then
    .ok { a with
      workers := newWorkers
      doneChans :=
        a.doneChans ++ List.range' a.nextChan (newWorkers - a.workers).toNat
      nextChan := a.nextChan + (newWorkers - a.workers).toNat }
  else if newWorkers < a.workers then
    .ok { a with
      workers := newWorkers
      doneChans := a.doneChans.take newWorkers.toNat
      closed := a.closed ++ a.doneChans.drop newWorkers.toNat }
  else
    .ok { a with workers := newWorkers }

/-- Whether `strings.TrimSpace` strips the character: `unicode.IsSpace`
on the Latin-1 range (tab through carriage return, space, NEL, NBSP). -/
def isGoSpace (c : Char) : Bool :=
  (9 ≤ c.toNat && c.toNat ≤ 13) || c.toNat == 32 || c.toNat == 133 ||
    c.toNat == 160

/-- `strings.TrimSpace`. -/
def trimSpace (s : String) : String :=
  ⟨((s.data.dropWhile isGoSpace).reverse.dropWhile isGoSpace).reverse⟩

/-- `strings.Split s " "`: split at every single space, keeping empty
fields; the empty input yields one empty field. -/
def splitSpace : List Char → List (List Char)
  | [] => [[]]
  | c :: rest =>
    if c = ' ' then [] :: splitSpace rest
    else
      match splitSpace rest with
      | w :: ws => (c :: w) :: ws
      | [] => [[c]]

/-- `strings.Split (strings.TrimSpace input) " "`, as `handleControl`
computes its `parts`. -/
def splitParts (s : String) : List String :=
  (splitSpace s.data).map fun w => ⟨w⟩

/-- A nonempty run of decimal digits to its value. -/
def digitsVal (cs : List Char) : Option Nat :=
  if cs ≠ [] ∧ cs.all Char.isDigit then
    some (cs.foldl (fun acc c => acc * 10 + (c.toNat - 48)) 0)
  else none

/-- `strconv.Atoi`: an optional sign, a nonempty run of decimal digits,
and a 64-bit signed range check. -/
def Atoi (s : String) : Option Int :=
  let signed : Bool × List Char :=
    match s.data with
    | '-' :: rest => (true, rest)
    | '+' :: rest => (false, rest)
    | cs => (false, cs)
  match digitsVal signed.2 with
  | none => none
  | some n =>
    let v : Int := if signed.1 then -(n : Int) else (n : Int)
    if -(2 ^ 63) ≤ v ∧ v < 2 ^ 63 then some v else none

/-- The replies `handleControl` writes back on the connection, one
constructor per `fmt` template in the source. -/
inductive Reply where
  | invalidDuration
  | intervalChanged (old : Int) (new : Int)
  | invalidCount
  | resizeError (msg : String)
  | workersChanged (old : Int) (new : Int)
  deriving DecidableEq, Repr

/-- The command dispatch of `Aggregator.handleControl`, over the
already-split `parts` of the input line: fewer than two tokens (the
source's `len(parts) < 2` guard, the wildcard case here) or an
unrecognized command return silently with no state change.  `parseDur`
is the collaborator `time.ParseDuration`; `now` is the instant of the
call (`ticker.Reset(dur)` restarts the period from it, so the next
deadline becomes `now + dur`).  Returns the state after the command and
the reply written back, `none` when the handler replies nothing. -/
def handleParts (parseDur : String → Option Int) (now : Int) :
    List String → AggState → AggState × Option Reply
  | p0 :: p1 :: _, a =>
    if p0 = "set-interval" then
      match parseDur p1 with
      | none => (a, some .invalidDuration)
      | some dur =>
        ({ a with interval := dur, tickerDeadline := now + dur },
          some (.intervalChanged a.interval dur))
    else if p0 = "set-workers" then
      match Atoi p1 with
      | none => (a, some .invalidCount)
      | some count =>
        match Resize a count with
        | .error e => (a, some (.resizeError e))
        | .ok a1 => (a1, some (.workersChanged a.workers count))
    else (a, none)
  | _, a => (a, none)

/-- `Aggregator.handleControl` on one connection's full input:
`parts := strings.Split(strings.TrimSpace(input), " ")`, then the command
dispatch of `handleParts`. -/
def handleControl (parseDur : String → Option Int) (now : Int)
    (input : String) (a : AggState) : AggState × Option Reply :=
  handleParts parseDur now (splitParts (trimSpace input)) a

/-- C1: one scheduler tick appends to the `jobs` queue exactly the feeds
`GetOutdatedFeeds` selects for the current worker count `W`: of the `N`
stored feeds, `min N W` many, ordered most-overdue-first — rows with a
NULL last-refreshed timestamp before all others, then ascending by
last-refreshed timestamp — and every enqueued feed comes from the
store. -/
theorem tick_enqueues_min_overdue_first (a : AggState) (d : DBState) :
    (tick a d).jobs = a.jobs ++ GetOutdatedFeeds d a.workers.toNat
    ∧ (GetOutdatedFeeds d a.workers.toNat).length
        = min d.feeds.length a.workers.toNat
    ∧ List.Sorted feedOverdueLE (GetOutdatedFeeds d a.workers.toNat)
    ∧ GetOutdatedFeeds d a.workers.toNat ⊆ d.feeds := by
  refine ⟨rfl, ?_, ?_, ?_⟩
  · unfold GetOutdatedFeeds
    rw [List.length_take, List.length_insertionSort]
    exact Nat.min_comm _ _
  · exact List.Pairwise.take
      (List.sorted_insertionSort feedOverdueLE d.feeds)
  · intro f hf
    exact (List.mem_insertionSort feedOverdueLE).mp (List.mem_of_mem_take hf)

/-- C1, instantiated: the tick of a two-worker pool over a three-feed
store. -/
theorem tick_enqueues_min_overdue_first_witness :
    (tick ⟨2, [0, 1], 2, [], 5, 5, []⟩
        ⟨[⟨1, 0, some 9, "a", "ua"⟩, ⟨2, 0, none, "b", "ub"⟩,
          ⟨3, 0, some 4, "c", "uc"⟩], []⟩).jobs
      = [] ++ GetOutdatedFeeds
          ⟨[⟨1, 0, some 9, "a", "ua"⟩, ⟨2, 0, none, "b", "ub"⟩,
            ⟨3, 0, some 4, "c", "uc"⟩], []⟩ (2 : Int).toNat
    ∧ (GetOutdatedFeeds
          ⟨[⟨1, 0, some 9, "a", "ua"⟩, ⟨2, 0, none, "b", "ub"⟩,
            ⟨3, 0, some 4, "c", "uc"⟩], []⟩ (2 : Int).toNat).length
        = min 3 (2 : Int).toNat
    ∧ List.Sorted feedOverdueLE
        (GetOutdatedFeeds
          ⟨[⟨1, 0, some 9, "a", "ua"⟩, ⟨2, 0, none, "b", "ub"⟩,
            ⟨3, 0, some 4, "c", "uc"⟩], []⟩ (2 : Int).toNat)
    ∧ GetOutdatedFeeds
          ⟨[⟨1, 0, some 9, "a", "ua"⟩, ⟨2, 0, none, "b", "ub"⟩,
            ⟨3, 0, some 4, "c", "uc"⟩], []⟩ (2 : Int).toNat
        ⊆ [⟨1, 0, some 9, "a", "ua"⟩, ⟨2, 0, none, "b", "ub"⟩,
           ⟨3, 0, some 4, "c", "uc"⟩] :=
  tick_enqueues_min_overdue_first ⟨2, [0, 1], 2, [], 5, 5, []⟩
    ⟨[⟨1, 0, some 9, "a", "ua"⟩, ⟨2, 0, none, "b", "ub"⟩,
      ⟨3, 0, some 4, "c", "uc"⟩], []⟩

/-- C2 is false of the source: when `rss.FetchAndParse` fails, the
worker's `continue` skips `UpdateFeedUpdatedAt`, so the fetch-failed
feed's last-refreshed timestamp is NOT stamped.  Concretely: a feed last
refreshed at 5 whose fetch fails at time 100 still carries timestamp 5
afterwards, not 100. -/
theorem worker_fetch_fail_stamps_counterexample :
    ((workerCycle (fun _ => none) (fun _ _ => none) 100
        ⟨[⟨1, 0, some 5, "a", "u"⟩], []⟩
        ⟨1, 0, some 5, "a", "u"⟩).feeds.map Feed.updatedAt = [some 5])
    ∧ [some 5] ≠ [some (100 : Nat)] :=
  ⟨rfl, by decide⟩

/-- C2 (amended): for every claimed feed whose fetch-and-parse step fails
outright, the worker leaves the store — the feed's last-refreshed
timestamp included — completely unchanged, so the feed stays at the front
of the most-overdue ordering and is retried promptly. -/
theorem worker_fetch_fail_no_stamp (fetch : String → Option RSSFeed)
    (timeParse : String → String → Option Nat) (now : Nat) (d : DBState)
    (feed : Feed) (h : fetch feed.url = none) :
    workerCycle fetch timeParse now d feed = d := by
  unfold workerCycle
  rw [h]

/-- C2 (amended), instantiated at a concrete failing fetch. -/
theorem worker_fetch_fail_no_stamp_witness :
    (fun _ : String => (none : Option RSSFeed)) "u" = none
    ∧ workerCycle (fun _ => none) (fun _ _ => none) 100
        ⟨[⟨1, 0, some 5, "a", "u"⟩], []⟩ ⟨1, 0, some 5, "a", "u"⟩
      = ⟨[⟨1, 0, some 5, "a", "u"⟩], []⟩ :=
  ⟨rfl, worker_fetch_fail_no_stamp _ _ _ _ _ rfl⟩

/-- C3: for every current count `c ≥ 1` — with one tracked stop channel
per runner — and request `k ≥ 1`, `Resize` succeeds and the tracked count
becomes `k`; growing appends exactly `k - c` fresh stop channels (one per
started runner) after the existing ones, leaving the existing channels
and the set of already-signalled channels untouched; shrinking signals
exactly the `c - k` most-recently-added channels (the trailing `drop`)
and removes exactly those from the tracked slice; the `jobs` queue is
untouched in both cases. -/
theorem Resize_grow_shrink (a : AggState) (k : Int) (hc : 1 ≤ a.workers)
    (hwf : AggWF a) (hk : 1 ≤ k) :
    ∃ a1, Resize a k = .ok a1
      ∧ a1.workers = k
      ∧ a1.jobs = a.jobs
      ∧ a1.interval = a.interval
      ∧ (a.workers < k →
          a1.doneChans
              = a.doneChans ++ List.range' a.nextChan (k - a.workers).toNat
            ∧ (List.range' a.nextChan (k - a.workers).toNat).length
                = (k - a.workers).toNat
            ∧ a1.doneChans.length = k.toNat
            ∧ a1.closed = a.closed)
      ∧ (k < a.workers →
          a1.doneChans = a.doneChans.take k.toNat
            ∧ a1.doneChans.length = k.toNat
            ∧ a1.closed = a.closed ++ a.doneChans.drop k.toNat
            ∧ (a.doneChans.drop k.toNat).length = (a.workers - k).toNat) := by
  unfold AggWF at hwf
  unfold Resize
  rw [if_neg (by omega)]
  by_cases h1 : a.workers < k
  · rw [if_pos h1]
    refine ⟨_, rfl, rfl, rfl, rfl, ?_, ?_⟩
    · intro _
      refine ⟨rfl, List.length_range' _ _ _, ?_, rfl⟩
      rw [List.length_append, List.length_range', hwf]
      omega
    · intro h2
      omega
  · rw [if_neg h1]
    by_cases h2 : k < a.workers
    · rw [if_pos h2]
      refine ⟨_, rfl, rfl, rfl, rfl, fun h => absurd h h1, ?_⟩
      intro _
      refine ⟨rfl, ?_, rfl, ?_⟩
      · rw [List.length_take, hwf]
        omega
      · rw [List.length_drop, hwf]
        omega
    · rw [if_neg h2]
      exact ⟨_, rfl, rfl, rfl, rfl, fun h => absurd h h1, fun h => absurd h h2⟩

/-- C3, instantiated: growing a two-runner pool to four. -/
theorem Resize_grow_shrink_witness :
    (1 : Int) ≤ 2 ∧ AggWF ⟨2, [0, 1], 2, [], 5, 5, []⟩ ∧ (1 : Int) ≤ 4
    ∧ ∃ a1, Resize ⟨2, [0, 1], 2, [], 5, 5, []⟩ 4 = .ok a1
      ∧ a1.workers = 4
      ∧ a1.jobs = []
      ∧ a1.interval = 5
      ∧ ((2 : Int) < 4 →
          a1.doneChans = [0, 1] ++ List.range' 2 ((4 : Int) - 2).toNat
            ∧ (List.range' 2 ((4 : Int) - 2).toNat).length
                = ((4 : Int) - 2).toNat
            ∧ a1.doneChans.length = (4 : Int).toNat
            ∧ a1.closed = [])
      ∧ ((4 : Int) < 2 →
          a1.doneChans = [0, 1].take (4 : Int).toNat
            ∧ a1.doneChans.length = (4 : Int).toNat
            ∧ a1.closed = [] ++ [0, 1].drop (4 : Int).toNat
            ∧ ([0, 1].drop (4 : Int).toNat).length = ((2 : Int) - 4).toNat) :=
  ⟨by decide, rfl, by decide,
    Resize_grow_shrink ⟨2, [0, 1], 2, [], 5, 5, []⟩ 4 (by decide) rfl
      (by decide)⟩

/-- C10: resizing to the count already in effect succeeds, starts and
stops nothing, and leaves the whole state unchanged; the `set-workers`
reply then states the old and the new count as that same number. -/
theorem Resize_same_count_noop (a : AggState) (k : Int)
    (pd : String → Option Int) (now : Int) (input s : String)
    (hk : 1 ≤ k) (h : a.workers = k)
    (hparts : splitParts (trimSpace input) = ["set-workers", s])
    (hatoi : Atoi s = some k) :
    Resize a k = .ok a
    ∧ handleControl pd now input a = (a, some (.workersChanged k k)) := by
  have hres : Resize a k = .ok a := by
    unfold Resize
    rw [if_neg (by omega), if_neg (by omega), if_neg (by omega)]
    rw [← h]
  refine ⟨hres, ?_⟩
  unfold handleControl
  rw [hparts]
  simp [handleParts, hatoi, hres, h]

/-- C10, instantiated: `set-workers 2` on a two-worker pool. -/
theorem Resize_same_count_noop_witness :
    splitParts (trimSpace "set-workers 2") = ["set-workers", "2"]
    ∧ Atoi "2" = some 2
    ∧ Resize ⟨2, [0, 1], 2, [], 5, 5, []⟩ 2 = .ok ⟨2, [0, 1], 2, [], 5, 5, []⟩
    ∧ handleControl (fun _ => none) 0 "set-workers 2"
        ⟨2, [0, 1], 2, [], 5, 5, []⟩
      = (⟨2, [0, 1], 2, [], 5, 5, []⟩, some (.workersChanged 2 2)) := by
  refine ⟨by decide, by decide, ?_⟩
  have h := Resize_same_count_noop ⟨2, [0, 1], 2, [], 5, 5, []⟩ 2
    (fun _ => none) 0 "set-workers 2" "2" (by decide) rfl (by decide)
    (by decide)
  exact h

/-- C4: `Resize` rejects every count below 1 with its size-validation
error, mutating nothing (the error is returned before any field is
assigned, so the caller's state is unchanged); through `set-workers`, a
non-integer argument replies the invalid-count error with the state
unchanged, and an integer below 1 replies the resize failure reason with
the state unchanged. -/
theorem Resize_reject_below_one (a : AggState) (pd : String → Option Int)
    (now : Int) (input s : String)
    (hparts : splitParts (trimSpace input) = ["set-workers", s]) :
    (∀ k : Int, k < 1 → Resize a k = .error "workers must be at least 1")
    ∧ (Atoi s = none →
        handleControl pd now input a = (a, some .invalidCount))
    ∧ (∀ k : Int, Atoi s = some k → k < 1 →
        handleControl pd now input a
          = (a, some (.resizeError "workers must be at least 1"))) := by
  refine ⟨?_, ?_, ?_⟩
  · intro k hk
    unfold Resize
    rw [if_pos hk]
  · intro h
    unfold handleControl
    rw [hparts]
    simp [handleParts, h]
  · intro k h1 h2
    have hres : Resize a k = .error "workers must be at least 1" := by
      unfold Resize
      rw [if_pos h2]
    unfold handleControl
    rw [hparts]
    simp [handleParts, h1, hres]

/-- C4, instantiated: `set-workers 0` and `set-workers abc` on a
one-worker pool. -/
theorem Resize_reject_below_one_witness :
    splitParts (trimSpace "set-workers 0") = ["set-workers", "0"]
    ∧ Resize ⟨1, [0], 1, [], 5, 5, []⟩ 0 = .error "workers must be at least 1"
    ∧ handleControl (fun _ => none) 0 "set-workers 0" ⟨1, [0], 1, [], 5, 5, []⟩
        = (⟨1, [0], 1, [], 5, 5, []⟩,
           some (.resizeError "workers must be at least 1"))
    ∧ handleControl (fun _ => none) 0 "set-workers abc"
        ⟨1, [0], 1, [], 5, 5, []⟩
        = (⟨1, [0], 1, [], 5, 5, []⟩, some .invalidCount) := by
  refine ⟨by decide, ?_, ?_, ?_⟩
  · exact (Resize_reject_below_one ⟨1, [0], 1, [], 5, 5, []⟩ (fun _ => none) 0
      "set-workers 0" "0" (by decide)).1 0 (by decide)
  · exact (Resize_reject_below_one ⟨1, [0], 1, [], 5, 5, []⟩ (fun _ => none) 0
      "set-workers 0" "0" (by decide)).2.2 0 (by decide) (by decide)
  · exact (Resize_reject_below_one ⟨1, [0], 1, [], 5, 5, []⟩ (fun _ => none) 0
      "set-workers abc" "abc" (by decide)).2.1 (by decide)

/-- C6: for a `set-interval` line, an argument `time.ParseDuration`
rejects draws the invalid-duration reply and changes nothing; an argument
it accepts as `dur` updates the period to `dur`, resets the ticker so the
next deadline is `now + dur` — independent of the old period's phase —
and replies with the old and the new period. -/
theorem setInterval_updates_period_and_phase (pd : String → Option Int)
    (now : Int) (input s : String) (a : AggState)
    (hparts : splitParts (trimSpace input) = ["set-interval", s]) :
    (pd s = none →
        handleControl pd now input a = (a, some .invalidDuration))
    ∧ (∀ dur, pd s = some dur →
        handleControl pd now input a
          = ({ a with interval := dur, tickerDeadline := now + dur },
             some (.intervalChanged a.interval dur))) := by
  constructor
  · intro h
    unfold handleControl
    rw [hparts]
    simp [handleParts, h]
  · intro dur h
    unfold handleControl
    rw [hparts]
    simp [handleParts, h]

/-- C6, instantiated: `set-interval 5s` at time 100 on a pool whose old
period is 7 and whose old deadline is 3. -/
theorem setInterval_updates_period_and_phase_witness :
    splitParts (trimSpace "set-interval 5s") = ["set-interval", "5s"]
    ∧ (fun x => if x = "5s" then some (5 : Int) else none) "5s" = some 5
    ∧ handleControl (fun x => if x = "5s" then some (5 : Int) else none) 100
        "set-interval 5s" ⟨1, [0], 1, [], 7, 3, []⟩
        = (⟨1, [0], 1, [], 5, 100 + 5, []⟩, some (.intervalChanged 7 5)) := by
  refine ⟨by decide, by decide, ?_⟩
  exact (setInterval_updates_period_and_phase
    (fun x => if x = "5s" then some (5 : Int) else none) 100
    "set-interval 5s" "5s" ⟨1, [0], 1, [], 7, 3, []⟩ (by decide)).2 5 (by decide)

/-- C8: a control line that splits into fewer than two tokens, or whose
first token is neither `set-interval` nor `set-workers`, produces no
reply and no state change — the handler just returns and the connection
is closed. -/
theorem handleControl_silent_on_malformed (pd : String → Option Int)
    (now : Int) (input : String) (a : AggState)
    (h : (splitParts (trimSpace input)).length < 2
       ∨ ((splitParts (trimSpace input)).headI ≠ "set-interval"
          ∧ (splitParts (trimSpace input)).headI ≠ "set-workers")) :
    handleControl pd now input a = (a, none) := by
  unfold handleControl
  cases hp : splitParts (trimSpace input) with
  | nil => rfl
  | cons p0 rest =>
    cases rest with
    | nil => rfl
    | cons p1 rest2 =>
      rw [hp] at h
      rcases h with h | ⟨h1, h2⟩
      · simp only [List.length_cons] at h
        omega
      · simp only [List.headI] at h1 h2
        simp only [handleParts]
        rw [if_neg h1, if_neg h2]

/-- C8, instantiated: an unrecognized two-token command and a one-token
line. -/
theorem handleControl_silent_on_malformed_witness :
    ((splitParts (trimSpace "hello world")).length < 2
       ∨ ((splitParts (trimSpace "hello world")).headI ≠ "set-interval"
          ∧ (splitParts (trimSpace "hello world")).headI ≠ "set-workers"))
    ∧ handleControl (fun _ => none) 0 "hello world" ⟨1, [0], 1, [], 5, 5, []⟩
        = (⟨1, [0], 1, [], 5, 5, []⟩, none)
    ∧ handleControl (fun _ => none) 0 "set-interval" ⟨1, [0], 1, [], 5, 5, []⟩
        = (⟨1, [0], 1, [], 5, 5, []⟩, none) :=
  ⟨by decide,
    handleControl_silent_on_malformed (fun _ => none) 0 "hello world"
      ⟨1, [0], 1, [], 5, 5, []⟩ (by decide),
    handleControl_silent_on_malformed (fun _ => none) 0 "set-interval"
      ⟨1, [0], 1, [], 5, 5, []⟩ (by decide)⟩

lemma firstParse_append_some (tp : String → String → Option Nat)
    (s : String) (fs1 : List String) (f : String) (fs2 : List String)
    (t : Nat) (h1 : ∀ g ∈ fs1, tp g s = none) (h2 : tp f s = some t) :
    firstParse tp s (fs1 ++ f :: fs2) = some t := by
  induction fs1 with
  | nil => simp [firstParse, h2]
  | cons g gs ih =>
    have hg : tp g s = none := h1 g (by simp)
    simp only [List.cons_append, firstParse, hg]
    exact ih fun x hx => h1 x (List.mem_cons_of_mem _ hx)

lemma firstParse_none (tp : String → String → Option Nat) (s : String)
    (fs : List String) (h : ∀ g ∈ fs, tp g s = none) :
    firstParse tp s fs = none := by
  induction fs with
  | nil => rfl
  | cons g gs ih =>
    have hg : tp g s = none := h g (by simp)
    simp only [firstParse, hg]
    exact ih fun x hx => h x (List.mem_cons_of_mem _ hx)

/-- C5: `parsePubDate` tries the fixed format list in order and returns
the result of the first format `time.Parse` accepts; when no listed
format matches it returns the unrecognized-date error and no timestamp;
and the worker's item loop treats that error as skipping just this entry,
leaving the store unchanged. -/
theorem parsePubDate_first_format_wins (tp : String → String → Option Nat)
    (s : String) (feed : Feed) (item : Item) (d : DBState) :
    (∀ fs1 f fs2 t, pubDateFormats = fs1 ++ f :: fs2 →
        (∀ g ∈ fs1, tp g s = none) → tp f s = some t →
        parsePubDate tp s = .ok t)
    ∧ ((∀ f ∈ pubDateFormats, tp f s = none) →
        parsePubDate tp s = .error ("no matching format for pubDate: " ++ s))
    ∧ ((∀ f ∈ pubDateFormats, tp f item.pubDate = none) →
        processItem tp feed d item = d) := by
  refine ⟨?_, ?_, ?_⟩
  · intro fs1 f fs2 t heq h1 h2
    unfold parsePubDate
    rw [heq, firstParse_append_some tp s fs1 f fs2 t h1 h2]
  · intro h
    unfold parsePubDate
    rw [firstParse_none tp s _ h]
  · intro h
    have he : parsePubDate tp item.pubDate
        = .error ("no matching format for pubDate: " ++ item.pubDate) := by
      unfold parsePubDate
      rw [firstParse_none tp item.pubDate _ h]
    unfold processItem
    rw [he]

/-- C5, instantiated: a parser accepting only the third listed format
wins with its result, and a parser accepting nothing yields the error
while the item loop leaves the store unchanged. -/
theorem parsePubDate_first_format_wins_witness :
    parsePubDate
        (fun f _ => if f = "02 Jan 06 15:04 MST" then some 42 else none) "x"
      = .ok 42
    ∧ parsePubDate (fun _ _ => none) "y"
        = .error ("no matching format for pubDate: " ++ "y")
    ∧ processItem (fun _ _ => none) ⟨1, 0, none, "a", "u"⟩
        ⟨[], []⟩ ⟨"t", "l", "d", "y"⟩
      = ⟨[], []⟩ := by
  refine ⟨?_, ?_, ?_⟩
  · exact (parsePubDate_first_format_wins
      (fun f _ => if f = "02 Jan 06 15:04 MST" then some 42 else none) "x"
      ⟨1, 0, none, "a", "u"⟩ ⟨"t", "l", "d", "x"⟩ ⟨[], []⟩).1
      ["Mon, 02 Jan 2006 15:04:05 MST", "Mon, 02 Jan 2006 15:04:05 -0700"]
      "02 Jan 06 15:04 MST"
      ["02 Jan 06 15:04 -0700", "2006-01-02T15:04:05Z",
       "2006-01-02T15:04:05-07:00"]
      42 rfl (by decide) (by decide)
  · exact (parsePubDate_first_format_wins (fun _ _ => none) "y"
      ⟨1, 0, none, "a", "u"⟩ ⟨"t", "l", "d", "y"⟩ ⟨[], []⟩).2.1
      (by intro f _; rfl)
  · exact (parsePubDate_first_format_wins (fun _ _ => none) "y"
      ⟨1, 0, none, "a", "u"⟩ ⟨"t", "l", "d", "y"⟩ ⟨[], []⟩).2.2
      (by intro f _; rfl)

/-- The pair the storage layer's unique index `articles_feed_link_idx`
constrains: `(feed_id, link)`. -/
def articleKey (x : Article) : Nat × String :=
  (x.feedID, x.link)

/-- C7: the worker inserts an entry only after `ArticleExists` reports
its `(feed, link)` pair absent, so processing an item preserves the
at-most-one-article-per-`(feed, link)` invariant, and processing the same
item a second time is a no-op on the store. -/
theorem article_feed_link_unique (tp : String → String → Option Nat)
    (feed : Feed) (item : Item) (d : DBState) :
    ((d.articles.map articleKey).Nodup →
      ((processItem tp feed d item).articles.map articleKey).Nodup)
    ∧ processItem tp feed (processItem tp feed d item) item
        = processItem tp feed d item := by
  cases hp : parsePubDate tp item.pubDate with
  | error e =>
    have h1 : processItem tp feed d item = d := by
      unfold processItem
      rw [hp]
    rw [h1]
    exact ⟨id, h1⟩
  | ok pubDate =>
    have hstep : ∀ d0 : DBState, processItem tp feed d0 item
        = if ArticleExists d0 feed.id item.link then d0
          else InsertArticle d0
            ⟨item.title, item.link, item.description, pubDate, feed.id⟩ := by
      intro d0
      unfold processItem
      rw [hp]
    cases hex : ArticleExists d feed.id item.link with
    | true =>
      have h1 : processItem tp feed d item = d := by
        rw [hstep d, hex]
        simp
      rw [h1]
      exact ⟨id, h1⟩
    | false =>
      have h1 : processItem tp feed d item
          = InsertArticle d
              ⟨item.title, item.link, item.description, pubDate, feed.id⟩ := by
        rw [hstep d, hex]
        simp
      rw [h1]
      constructor
      · intro hnd
        unfold ArticleExists at hex
        rw [List.any_eq_false] at hex
        unfold InsertArticle
        simp only [List.map_append, List.map_cons, List.map_nil]
        rw [List.nodup_append]
        refine ⟨hnd, List.nodup_singleton _, ?_⟩
        intro key hk1 hk2
        simp only [List.mem_singleton] at hk2
        rcases List.mem_map.mp hk1 with ⟨x, hx, hkey⟩
        have hxx := hex x hx
        simp only [Bool.and_eq_true, beq_iff_eq, not_and] at hxx
        rw [hk2] at hkey
        unfold articleKey at hkey
        simp only [Prod.mk.injEq] at hkey
        exact hxx hkey.1 hkey.2
      · have hex2 : ArticleExists
            (InsertArticle d
              ⟨item.title, item.link, item.description, pubDate, feed.id⟩)
            feed.id item.link = true := by
          unfold ArticleExists InsertArticle
          simp
        rw [hstep _, hex2]
        simp

/-- C7, instantiated: inserting the same entry twice into an initially
empty store. -/
theorem article_feed_link_unique_witness :
    (((⟨[], []⟩ : DBState).articles.map articleKey).Nodup →
      ((processItem (fun _ _ => some 7) ⟨1, 0, none, "a", "u"⟩ ⟨[], []⟩
          ⟨"t", "l", "d", "x"⟩).articles.map articleKey).Nodup)
    ∧ processItem (fun _ _ => some 7) ⟨1, 0, none, "a", "u"⟩
        (processItem (fun _ _ => some 7) ⟨1, 0, none, "a", "u"⟩ ⟨[], []⟩
          ⟨"t", "l", "d", "x"⟩) ⟨"t", "l", "d", "x"⟩
      = processItem (fun _ _ => some 7) ⟨1, 0, none, "a", "u"⟩ ⟨[], []⟩
          ⟨"t", "l", "d", "x"⟩ :=
  article_feed_link_unique (fun _ _ => some 7) ⟨1, 0, none, "a", "u"⟩
    ⟨"t", "l", "d", "x"⟩ ⟨[], []⟩

end StreamHub
